import Mathlib

/-
Verification of tweetmap (src/tweetmap.py): a shallow embedding of the
program's data model and operations, with theorems settling the spec's
claims about it.

Modelling conventions:
* Python floats are embedded as exact rationals (ℚ).  The program only
  compares, min/maxes, adds, multiplies and divides coordinates, so the
  rational embedding is faithful up to float rounding, which no claim is
  about.
* Python exceptions are embedded with `Except PyErr`.  A `try/except`
  block is a `match` on the result; an uncaught exception propagates via
  the `Except` monad (`do`-notation), exactly like Python unwinding.
* External collaborators (json, pyproj, shapely) are embedded by their
  documented behaviour at the call sites the program uses:
  - `json.loads` either parses a line or raises; an input line is
    therefore modelled as `Option Json`.
  - `pyproj.Proj` instances are opaque numeric functions; the composite
    projection is parameterised over them.
  - shapely's `contains` is the strict (interior) containment predicate
    of GEOS: a point lying on the boundary is NOT contained.  It is
    embedded as an even-odd ray-crossing test plus an explicit
    boundary-exclusion test, the standard semantics for valid polygons.
  - shapely binary predicates raise `ValueError "Null geometry supports
    no operations"` when handed `None` instead of a geometry (shapely
    1.x, the version this program's dependency set pins).
-/

namespace Tweetmap

/-- Python exceptions that the program can raise or catch. -/
inductive PyErr where
  | keyError
  | indexError
  | typeError
  | valueError (msg : String)
  | jsonDecodeError
  deriving DecidableEq, Repr

/-- JSON values, the shape of a decoded input record (`json.loads` of one
line).  Objects keep insertion order, as Python dicts do. -/
inductive Json where
  | null
  | bool (b : Bool)
  | num (q : ℚ)
  | str (s : String)
  | arr (l : List Json)
  | obj (l : List (String × Json))

/-- One element of a key path: a Python `o[p]` subscript is either an
integer index or a string key. -/
inductive Key where
  | idx (i : ℤ)
  | key (s : String)
  deriving DecidableEq, Repr

/-- Ordered dict lookup, Python `d[key]` hit-or-miss. -/
def dictLookup (s : String) : List (String × Json) → Option Json
  | [] => none
  | (k, v) :: rest => if k = s then some v else dictLookup s rest

/-- Python subscript `o[p]` on a decoded JSON value, with Python's error
classes: missing dict key raises KeyError, out-of-range sequence index
raises IndexError (after Python's negative-index wrap-around), and a
string index on a sequence or any subscript on a non-subscriptable value
raises TypeError.  JSON object keys are strings, so an integer key on an
object is a missing key. -/
def getItem : Json → Key → Except PyErr Json
  | .obj kvs, .key s =>
      match dictLookup s kvs with
      | some v => .ok v
      | none => .error .keyError
  | .obj _, .idx _ => .error .keyError
  | .arr l, .idx i =>
      let j : ℤ := if i < 0 then i + l.length else i
      if 0 ≤ j ∧ j.toNat < l.length then .ok (l.getD j.toNat .null)
      else .error .indexError
  | .arr _, .key _ => .error .typeError
  | .str s, .idx i =>
      let j : ℤ := if i < 0 then i + s.length else i
      if 0 ≤ j ∧ j.toNat < s.length then .ok (.str (String.singleton (s.data.getD j.toNat ' ')))
      else .error .indexError
  | .str _, .key _ => .error .typeError
  | _, _ => .error .typeError

/-- The keypath walk `functools.reduce(lambda o, p: o[p], keypath, obj)`
from `_extract_location` (src/tweetmap.py line 154). -/
def reduceLookup (keypath : List Key) (obj : Json) : Except PyErr Json :=
  keypath.foldlM getItem obj

/-- A shapely point, as the pair of its coordinates. -/
def Point : Type := ℚ × ℚ

instance : DecidableEq Point := instDecidableEqProd

/-- Models the `shapely.geometry.Point` constructor applied to a sequence
of coordinate values: two numbers make a point; anything else makes the
constructor raise (modelled as ValueError, uncaught by the program). -/
def pointOfSeq : List Json → Except PyErr Point
  | [.num x, .num y] => .ok (x, y)
  | _ => .error (.valueError "invalid point coordinates")

/-- The format dispatch inside `_extract_location` (src/tweetmap.py lines
155-162).  `lat-lon-array` builds `Point(reversed(location))` (reversing a
dict or non-sequence raises TypeError); `lon-lat-array` builds
`Point(location)`; `lat-lon-dict` reads `location["lon"]` then
`location["lat"]` with Python subscript semantics; any other tag raises
`ValueError("Invalid location format: ...")` — note this happens here,
per record, not when the extractor is created. -/
def formatConvert (location_format : String) (location : Json) : Except PyErr Point :=
  if location_format = "lat-lon-array" then
    match location with
    | .arr l => pointOfSeq l.reverse
    | _ => .error .typeError
  else if location_format = "lon-lat-array" then
    match location with
    | .arr l => pointOfSeq l
    | _ => .error .typeError
  else if location_format = "lat-lon-dict" then do
    let lon ← getItem location (.key "lon")
    let lat ← getItem location (.key "lat")
    pointOfSeq [lon, lat]
  else
    .error (.valueError ("Invalid location format: \"" ++ location_format ++ "\""))

/-- The per-record worker `_extract_location` (src/tweetmap.py lines
146-164): walk the keypath, convert the located value to a point, and
catch exactly `(KeyError, IndexError, TypeError)` as a `None` result.
Any other exception (notably the ValueError for a bad format tag)
propagates. -/
def _extract_location (keypath : List Key) (location_format : String) (obj : Json) :
    Except PyErr (Option Point) :=
  match (do
    let location ← reduceLookup keypath obj
    formatConvert location_format location : Except PyErr Point) with
  | .ok p => .ok (some p)
  | .error .keyError => .ok none
  | .error .indexError => .ok none
  | .error .typeError => .ok none
  | .error e => .error e

/-- The factory `extract_location` (src/tweetmap.py lines 135-166).  Its
body only defines and returns the closure, so constructing the extractor
can itself never raise, whatever the format tag: the result is always
`.ok`. -/
def extract_location (keypath : List Key) (location_format : String) :
    Except PyErr (Json → Except PyErr (Option Point)) :=
  .ok (_extract_location keypath location_format)

/-- The `choices` list of the `--location-format` argparse option
(src/tweetmap.py line 220): argparse rejects any other tag while parsing
the command line, before the extractor is built. -/
def location_format_choices : List String :=
  ["lat-lon-array", "lon-lat-array", "lat-lon-dict"]

/-- Feature coordinates: the untyped nested numeric lists of a GeoJSON
`coordinates` value (depth 1 for a point, 2 for a ring, 3 for a polygon,
4 for a multi-polygon). -/
inductive Coords where
  | num (q : ℚ)
  | list (l : List Coords)

/-- Python's `isinstance(c, Number)` on a coordinate-tree node. -/
def isNumberB : Coords → Bool
  | .num _ => true
  | .list _ => false

mutual

/-- The helper `_project_coordinates` of `projected_features`
(src/tweetmap.py lines 72-91).  A list of exactly two numbers — Python's
check `[isinstance(c, Number) for c in coordinates] == [True, True]` —
is a coordinate and is projected; any other list is recursed into
elementwise; iterating a bare number raises TypeError.  (The inner
catch-all branch is unreachable: the boolean test already pins the list
to exactly two numbers.) -/
def _project_coordinates (projection : ℚ → ℚ → ℚ × ℚ) : Coords → Except PyErr Coords
  | .num _ => .error .typeError
  | .list l =>
      if l.map isNumberB = [true, true] then
        match l with
        | [.num a, .num b] =>
            let (x, y) := projection a b
            .ok (.list [.num x, .num y])
        | _ => .error .typeError
      else (projectList projection l).map .list

/-- Elementwise recursion of `_project_coordinates` over a list node. -/
def projectList (projection : ℚ → ℚ → ℚ × ℚ) : List Coords → Except PyErr (List Coords)
  | [] => .ok []
  | c :: cs => do
      let c' ← _project_coordinates projection c
      let cs' ← projectList projection cs
      .ok (c' :: cs')

end

mutual

/-- Well-formedness of a coordinate tree: every leaf reachable by the
program's recursion rule is a two-number coordinate, so no TypeError can
occur.  (The same rule classifies nodes in `_project_coordinates` and
`_find_coordinate_bounds`.) -/
def isGeomB : Coords → Bool
  | .num _ => false
  | .list l => if l.map isNumberB = [true, true] then true else isGeomListB l

/-- Elementwise well-formedness over a list node. -/
def isGeomListB : List Coords → Bool
  | [] => true
  | c :: cs => isGeomB c && isGeomListB cs

end

mutual

/-- Two coordinate trees have the same shape: equal nesting structure and
element count at every level. -/
def sameShapeB : Coords → Coords → Bool
  | .num _, .num _ => true
  | .list l, .list m => sameShapeListB l m
  | _, _ => false

/-- Pointwise shape equality of two lists of coordinate trees. -/
def sameShapeListB : List Coords → List Coords → Bool
  | [], [] => true
  | a :: as_, b :: bs => sameShapeB a b && sameShapeListB as_ bs
  | _, _ => false

end

/-- Largest Python float, `sys.float_info.max` = (2 - 2⁻⁵²)·2¹⁰²³. -/
def float_info_max : ℚ := 2 ^ 1024 - 2 ^ 971

/-- Smallest positive normalised Python float, `sys.float_info.min` =
2⁻¹⁰²². Note this is a tiny POSITIVE number, not the most negative
float. -/
def float_info_min : ℚ := 1 / 2 ^ 1022

/-- Accumulator of `feature_set_bounds`: the four `nonlocal` variables. -/
structure BoundsAcc where
  min_x : ℚ
  max_x : ℚ
  min_y : ℚ
  max_y : ℚ
  deriving DecidableEq, Repr

mutual

/-- The helper `_find_coordinate_bounds` of `feature_set_bounds`
(src/tweetmap.py lines 112-128), with the mutated `nonlocal` variables
passed as an explicit accumulator.  Same node classification as
`_project_coordinates`. -/
def _find_coordinate_bounds (acc : BoundsAcc) : Coords → Except PyErr BoundsAcc
  | .num _ => .error .typeError
  | .list [.num x, .num y] =>
      .ok { min_x := min acc.min_x x, max_x := max acc.max_x x,
            min_y := min acc.min_y y, max_y := max acc.max_y y }
  | .list l => boundsList acc l

/-- Elementwise recursion of `_find_coordinate_bounds` over a list node. -/
def boundsList (acc : BoundsAcc) : List Coords → Except PyErr BoundsAcc
  | [] => .ok acc
  | c :: cs => do
      let acc' ← _find_coordinate_bounds acc c
      boundsList acc' cs

end

/-- GeoJSON geometry object: a `type` tag and a `coordinates` tree. -/
structure Geometry where
  gtype : String
  coordinates : Coords

/-- GeoJSON feature properties used by the program. -/
structure Properties where
  id : String
  name : String

/-- GeoJSON feature: `{ properties: {id, name}, geometry }`. -/
structure Feature where
  properties : Properties
  geometry : Geometry

/-- The bounds calculator `feature_set_bounds` (src/tweetmap.py lines
98-133): fold `_find_coordinate_bounds` over every feature's
coordinates, starting from the sentinels `sys.float_info.max` (for the
minima) and `sys.float_info.min` (for the maxima). -/
def feature_set_bounds (features : List Feature) : Except PyErr ((ℚ × ℚ) × (ℚ × ℚ)) := do
  let init : BoundsAcc :=
    { min_x := float_info_max, max_x := float_info_min,
      min_y := float_info_max, max_y := float_info_min }
  let acc ← features.foldlM (fun acc f => _find_coordinate_bounds acc f.geometry.coordinates) init
  .ok ((acc.min_x, acc.max_x), (acc.min_y, acc.max_y))

/-- A linear ring, as its list of vertices (GeoJSON rings repeat the
first vertex at the end, so consecutive pairs are the edges). -/
def Ring : Type := List Point

/-- A shapely geometry built by `shape(f["geometry"])`: a polygon is its
list of rings (outer ring then holes), a multi-polygon a list of such
polygons. -/
inductive Shape where
  | polygon (rings : List Ring)
  | multiPolygon (polys : List (List Ring))

/-- Parse one coordinate pair of a ring. -/
def parsePoint : Coords → Except PyErr Point
  | .list [.num x, .num y] => .ok (x, y)
  | _ => .error (.valueError "invalid coordinate")

/-- Parse one linear ring. -/
def parseRing : Coords → Except PyErr Ring
  | .list l => l.mapM parsePoint
  | _ => .error (.valueError "invalid ring")

/-- Parse the ring list of one polygon. -/
def parsePolygonRings : Coords → Except PyErr (List Ring)
  | .list l => l.mapM parseRing
  | _ => .error (.valueError "invalid polygon")

/-- Models `shapely.geometry.shape` (src/tweetmap.py line 183): build a
Polygon or MultiPolygon from a GeoJSON geometry; any other `type` makes
shapely raise a ValueError. -/
def shape (g : Geometry) : Except PyErr Shape :=
  if g.gtype = "Polygon" then
    (parsePolygonRings g.coordinates).map .polygon
  else if g.gtype = "MultiPolygon" then
    match g.coordinates with
    | .list l => (l.mapM parsePolygonRings).map .multiPolygon
    | _ => .error (.valueError "invalid multipolygon")
  else
    .error (.valueError ("Unknown geometry type: " ++ g.gtype))

/-- Whether `shape` succeeds on a feature's geometry. -/
def shapeOk (f : Feature) : Bool :=
  match shape f.geometry with
  | .ok _ => true
  | .error _ => false

/-- The point p lies on the closed segment from a to b: collinear and
inside the bounding box. -/
def onSegmentB (p a b : Point) : Bool :=
  decide ((b.1 - a.1) * (p.2 - a.2) = (b.2 - a.2) * (p.1 - a.1)) &&
  decide (min a.1 b.1 ≤ p.1) && decide (p.1 ≤ max a.1 b.1) &&
  decide (min a.2 b.2 ≤ p.2) && decide (p.2 ≤ max a.2 b.2)

/-- One step of the standard even-odd ray cast: does the horizontal ray
from p to the right cross the edge from a to b? -/
def edgeCrossesB (p a b : Point) : Bool :=
  (decide (a.2 > p.2) != decide (b.2 > p.2)) &&
  decide (p.1 < a.1 + (b.1 - a.1) * (p.2 - a.2) / (b.2 - a.2))

/-- The edges of a ring: consecutive vertex pairs. -/
def ringEdges (r : Ring) : List (Point × Point) :=
  r.zip r.tail

/-- The point lies on the ring (on one of its edges). -/
def onRingB (p : Point) (r : Ring) : Bool :=
  (ringEdges r).any fun e => onSegmentB p e.1 e.2

/-- Number of ring edges crossed by the rightward ray from p. -/
def ringCrossings (p : Point) (r : Ring) : ℕ :=
  (ringEdges r).countP fun e => edgeCrossesB p e.1 e.2

/-- Models GEOS/shapely `Polygon.contains(Point)`: strict interior
membership — the point is on no ring (the boundary is excluded) and the
even-odd crossing parity over all rings (outer ring and holes) is odd. -/
def polygonContainsB (rings : List Ring) (p : Point) : Bool :=
  (!rings.any (onRingB p)) &&
  (rings.foldl (fun n r => n + ringCrossings p r) 0) % 2 = 1

/-- The point lies on the boundary of the shape (on some ring). -/
def onBoundaryB (s : Shape) (p : Point) : Bool :=
  match s with
  | .polygon rings => rings.any (onRingB p)
  | .multiPolygon polys => polys.any fun rings => rings.any (onRingB p)

/-- Models shapely `s.contains(point)` (src/tweetmap.py line 184) for the
shapes the program builds: strict interior containment; a multi-polygon
contains a point iff some constituent polygon does. -/
def containsB (s : Shape) (p : Point) : Bool :=
  match s with
  | .polygon rings => polygonContainsB rings p
  | .multiPolygon polys => polys.any fun rings => polygonContainsB rings p

/-- The region locator `_find_containing_feature` (src/tweetmap.py lines
175-187): scan the features in order, build each shape, and return the
first feature (by `properties.id`) whose shape contains the point.  The
point argument is whatever `extract` returned, so it can be `None`; a
shapely predicate applied to `None` raises (shapely 1.x: "Null geometry
supports no operations"). -/
def find_containing_feature : List Feature → Option Point → Except PyErr (Option String)
  | [], _ => .ok none
  | f :: rest, point => do
      let s ← shape f.geometry
      match point with
      | none => .error (.valueError "Null geometry supports no operations")
      | some p =>
          if containsB s p then .ok (some f.properties.id)
          else find_containing_feature rest point

/-- Written from the spec's words, for comparison with the code: the id
of the first feature in collection order whose shape contains the
point. -/
def firstContaining (features : List Feature) (p : Point) : Option String :=
  (features.find? fun f =>
    match shape f.geometry with
    | .ok s => containsB s p
    | .error _ => false).map fun f => f.properties.id

/-- Models `json.loads(line)` (src/tweetmap.py line 269): an input line
either parses to a JSON value (`some`) or makes `json.loads` raise a
JSONDecodeError, which nothing in the program catches. -/
def json_loads : Option Json → Except PyErr Json
  | some j => .ok j
  | none => .error .jsonDecodeError

/-- The per-record pipeline `process_tweet` (src/tweetmap.py lines
268-269): `identify_feature(extract(json.loads(line)))`.  There is no
exception handler here: a decode error, an uncaught extraction error, or
a locator error propagates out of the worker and aborts the run. -/
def process_tweet (features : List Feature) (keypath : List Key)
    (location_format : String) (line : Option Json) : Except PyErr (Option String) := do
  let obj ← json_loads line
  let loc ← _extract_location keypath location_format obj
  find_containing_feature features loc

/-- The tally: a `collections.Counter`, embedded as an insertion-ordered
association list (Python dicts preserve insertion order, and `list(counter)`
is the key list in that order). -/
def Counter : Type := List (Option String × ℕ)

/-- Counter lookup, `counter[k]`: 0 for an absent key. -/
def counterGet : Counter → Option String → ℕ
  | [], _ => 0
  | (k', n) :: rest, k => if k' = k then n else counterGet rest k

/-- One loop step `counter[feature_id] = counter[feature_id] + 1`
(src/tweetmap.py line 274): bump an existing key in place, or append a
new key with count 1. -/
def counterInc : Counter → Option String → Counter
  | [], k => [(k, 1)]
  | (k', n) :: rest, k =>
      if k' = k then (k', n + 1) :: rest
      else (k', n) :: counterInc rest k

/-- The tally of a list of per-record results, folded left to right. -/
def tally_of (results : List (Option String)) : Counter :=
  results.foldl counterInc []

/-- One iteration of the aggregation loop: process one line and fold its
result into the counter (or propagate the worker's exception). -/
def tally_step (features : List Feature) (keypath : List Key) (location_format : String)
    (counter : Counter) (line : Option Json) : Except PyErr Counter :=
  (process_tweet features keypath location_format line).map (counterInc counter)

/-- The aggregation loop (src/tweetmap.py lines 271-276): process every
line and fold the results into the counter.  The pool delivers results
in arbitrary order; the fold is modelled in input order, and the tally
is proved to depend only on the multiset of results.  An exception from
any worker propagates and aborts the loop. -/
def run_tally (features : List Feature) (keypath : List Key)
    (location_format : String) (lines : List (Option Json)) : Except PyErr Counter :=
  lines.foldlM (tally_step features keypath location_format) []

/-- Key list of the counter, `list(counter)`, in insertion order. -/
def counter_keys (c : Counter) : List (Option String) :=
  c.map Prod.fst

/-- Stable descending insertion by count, modelling the order of
`Counter.most_common`. -/
def insertByCount (kv : Option String × ℕ) : Counter → Counter
  | [] => [kv]
  | kv' :: rest => if kv'.2 < kv.2 then kv :: kv' :: rest else kv' :: insertByCount kv rest

/-- Counter entries sorted by descending count, `Counter.most_common()`. -/
def most_common : Counter → Counter
  | [] => []
  | kv :: rest => insertByCount kv (most_common rest)

/-- The max-count computation (src/tweetmap.py lines 282-286):
`most_common[0][1]`, or `most_common[1][1]` when the top key is `None`.
Indexing an empty or one-element list there raises IndexError. -/
def max_tweet_count (c : Counter) : Except PyErr ℕ :=
  match most_common c with
  | [] => .error .indexError
  | (k, v) :: rest =>
      if k = none then
        match rest with
        | [] => .error .indexError
        | (_, v2) :: _ => .ok v2
      else .ok v

/-- Stable ascending insertion by feature name, modelling Python's
`sorted(..., key=lambda f: f["properties"]["name"])`. -/
def insertByName (f : Feature) : List Feature → List Feature
  | [] => [f]
  | g :: rest =>
      if f.properties.name < g.properties.name then f :: g :: rest
      else g :: insertByName f rest

/-- Features sorted by name. -/
def sortByName : List Feature → List Feature
  | [] => []
  | f :: rest => insertByName f (sortByName rest)

/-- The count table written to stdout (src/tweetmap.py lines 313-329):
one row per feature with a non-zero count, in name order, plus an
"Unknown Location" row when the null count is non-zero. -/
def count_table (c : Counter) (features : List Feature) : List (String × ℕ) :=
  ((sortByName features).filterMap fun f =>
    let n := counterGet c (some f.properties.id)
    if n ≠ 0 then some (f.properties.name, n) else none) ++
  (if counterGet c none ≠ 0 then [("Unknown Location", counterGet c none)] else [])

/-- Outcome of a run of the `__main__` driver: an uncaught exception, the
explicit `sys.exit(1)` after "Unable to locate any tweets", or a
completed run with its count table (and rendered map). -/
inductive RunOutcome where
  | fatal (e : PyErr)
  | exit1 (msg : String)
  | rendered (table : List (String × ℕ))

/-- The driver (src/tweetmap.py lines 260-336) from the aggregation loop
on: tally all lines; if the counter's key list is exactly `[None]`
(`len(list(counter)) == 1 and list(counter)[0] == None`), print the
failure and exit 1 before any table row or map is produced; otherwise
compute the max count and emit the count table (the subsequent plotting
calls are external rendering). -/
def main_run (features : List Feature) (keypath : List Key)
    (location_format : String) (lines : List (Option Json)) : RunOutcome :=
  match run_tally features keypath location_format lines with
  | .error e => .fatal e
  | .ok counter =>
      if counter_keys counter = [none] then .exit1 "Unable to locate any tweets"
      else
        match max_tweet_count counter with
        | .error e => .fatal e
        | .ok _ => .rendered (count_table counter features)

/-- The composite projection `AlbersUsaProjection` (src/tweetmap.py lines
22-61).  The three `pyproj.Proj` conic sub-projections are external
numeric functions, so the embedding is parameterised over them; the
routing thresholds and affine adjustments are the program's own. -/
def AlbersUsaProjection (alaska hawaii lower48 : ℚ → ℚ → ℚ × ℚ)
    (lon lat : ℚ) : ℚ × ℚ :=
  if lat > 50 then
    let (x, y) := alaska lon lat
    (x * 0.35 - 2250000, y * 0.35 - 1250000)
  else if lon < -140 then
    let (x, y) := hawaii lon lat
    (x - 1250000, y - 1750000)
  else
    let (x, y) := lower48 lon lat
    if lat < 20 then (x - 1125000, y + 750000)
    else (x, y)

/-- A default feature, for out-of-range heap reads (never reached under
the theorems' hypotheses). -/
def defaultFeature : Feature :=
  { properties := { id := "", name := "" }, geometry := { gtype := "", coordinates := .list [] } }

/-- Project one feature: replace its geometry's coordinates by their
projected values, leaving every other field as it was
(`f["geometry"]["coordinates"] = _project_coordinates(...)`). -/
def project_feature (projection : ℚ → ℚ → ℚ × ℚ) (f : Feature) : Except PyErr Feature :=
  (_project_coordinates projection f.geometry.coordinates).map fun c =>
    { f with geometry := { f.geometry with coordinates := c } }

/-- Models `copy.deepcopy(features)` (src/tweetmap.py line 93) over an
explicit heap of feature objects (a list indexed by address): fresh
copies of the features at `addrs` are allocated at fresh addresses after
the end of the heap, sharing nothing with the originals. -/
def deepcopy_features (heap : List Feature) (addrs : List ℕ) : List Feature × List ℕ :=
  (heap ++ addrs.map fun a => heap.getD a defaultFeature,
   List.range' heap.length addrs.length 1)

/-- One step of the mutation loop: project the feature stored at one
address and store the result back at that address. -/
def mutate_step (projection : ℚ → ℚ → ℚ × ℚ) (h : List Feature) (a : ℕ) :
    Except PyErr (List Feature) :=
  (project_feature projection (h.getD a defaultFeature)).map fun f => h.set a f

/-- The mutation loop of `projected_features` (src/tweetmap.py lines
94-95): for each feature of the copy, assign its projected coordinates
in place. -/
def mutate_geometries (projection : ℚ → ℚ → ℚ × ℚ) (heap : List Feature)
    (addrs : List ℕ) : Except PyErr (List Feature) :=
  addrs.foldlM (mutate_step projection) heap

/-- The feature projector `projected_features` (src/tweetmap.py lines
63-96) over the explicit heap: deep-copy the features at `addrs`, mutate
only the copies, and return the new heap with the copies' addresses. -/
def projected_features (heap : List Feature) (addrs : List ℕ)
    (projection : ℚ → ℚ → ℚ × ℚ) : Except PyErr (List Feature × List ℕ) :=
  let (h1, newAddrs) := deepcopy_features heap addrs
  (mutate_geometries projection h1 newAddrs).map fun h2 => (h2, newAddrs)

/-- Ring of the axis-aligned square with corners (0,0) and (2,2). -/
def ringA : Coords :=
  .list [.list [.num 0, .num 0], .list [.num 2, .num 0], .list [.num 2, .num 2],
         .list [.num 0, .num 2], .list [.num 0, .num 0]]

/-- Ring of the adjacent square with corners (2,0) and (4,2); it shares
the edge x = 2 with `ringA`. -/
def ringB : Coords :=
  .list [.list [.num 2, .num 0], .list [.num 4, .num 0], .list [.num 4, .num 2],
         .list [.num 2, .num 2], .list [.num 2, .num 0]]

/-- Feature "A": the first square. -/
def featureA : Feature :=
  { properties := { id := "A", name := "Alpha" },
    geometry := { gtype := "Polygon", coordinates := .list [ringA] } }

/-- Feature "B": the adjacent square. -/
def featureB : Feature :=
  { properties := { id := "B", name := "Beta" },
    geometry := { gtype := "Polygon", coordinates := .list [ringB] } }

/-- A record whose "loc" field is the point (1, 1), interior to A. -/
def recInA : Json := .obj [("loc", .arr [.num 1, .num 1])]

/-- The same record as an input line. -/
def lineInA : Option Json := some recInA

/-- A record whose "loc" field is the point (5, 5), outside both squares. -/
def lineOutside : Option Json := some (.obj [("loc", .arr [.num 5, .num 5])])

/-- A record with no "loc" field: the keypath lookup fails softly and the
extractor returns None. -/
def lineNoLoc : Option Json := some (.obj [("other", .num 1)])

/-- A malformed input line: `json.loads` raises on it. -/
def lineMalformed : Option Json := none

/-- The keypath ["loc"]. -/
def kpLoc : List Key := [.key "loc"]

/-- Ring of `ringA` after shifting every coordinate by (+1, 0). -/
def ringAShifted : Coords :=
  .list [.list [.num 1, .num 0], .list [.num 3, .num 0], .list [.num 3, .num 2],
         .list [.num 1, .num 2], .list [.num 1, .num 0]]

/-- Feature "A" after shifting every coordinate by (+1, 0): the expected
result of projecting it with `fun x y => (x + 1, y)`. -/
def featureAShifted : Feature :=
  { properties := { id := "A", name := "Alpha" },
    geometry := { gtype := "Polygon", coordinates := .list [ringAShifted] } }

/-- A feature whose geometry is the single point (-1, -1). -/
def negPointFeature : Feature :=
  { properties := { id := "P", name := "Point" },
    geometry := { gtype := "Point", coordinates := .list [.num (-1), .num (-1)] } }

attribute [simp] recInA tally_step mutate_step ringAShifted featureAShifted dictLookup getItem reduceLookup pointOfSeq formatConvert _extract_location
  extract_location location_format_choices isNumberB _project_coordinates projectList
  isGeomB isGeomListB sameShapeB sameShapeListB float_info_max float_info_min
  _find_coordinate_bounds boundsList feature_set_bounds parsePoint parseRing
  parsePolygonRings shape shapeOk onSegmentB edgeCrossesB ringEdges onRingB ringCrossings
  polygonContainsB onBoundaryB containsB find_containing_feature firstContaining json_loads
  process_tweet counterGet counterInc tally_of run_tally counter_keys insertByCount
  most_common max_tweet_count insertByName sortByName count_table main_run
  AlbersUsaProjection defaultFeature project_feature deepcopy_features mutate_geometries
  projected_features ringA ringB featureA featureB lineInA lineOutside lineNoLoc
  lineMalformed kpLoc negPointFeature

end Tweetmap

namespace Tweetmap

/-! ### Helper lemmas -/

/-- Every Python error that a subscript lookup can raise is one of the
three classes the extractor catches. -/
theorem getItem_error_mem (j : Json) (k : Key) (e : PyErr) (h : getItem j k = .error e) :
    e = .keyError ∨ e = .indexError ∨ e = .typeError := by
  cases j <;> cases k <;> simp only [getItem] at h <;>
    (repeat' split at h) <;>
    first
      | (injection h with h; simp [← h])
      | injection h

/-- Every error the keypath walk can raise is one of the three caught
classes. -/
theorem reduceLookup_error_mem (kp : List Key) (obj : Json) (e : PyErr)
    (h : reduceLookup kp obj = .error e) :
    e = .keyError ∨ e = .indexError ∨ e = .typeError := by
  induction kp generalizing obj with
  | nil => simp only [reduceLookup, List.foldlM_nil] at h; injection h
  | cons k rest ih =>
      rw [reduceLookup, List.foldlM_cons] at h
      cases hg : getItem obj k with
      | error e' =>
          rw [hg] at h
          simp only [bind, Except.bind] at h
          injection h with h
          exact h ▸ getItem_error_mem obj k e' hg
      | ok j' =>
          rw [hg] at h
          simp only [bind, Except.bind] at h
          exact ih j' h

/-- A failed keypath walk always yields the soft `None` outcome: its
error is one of the three caught classes. -/
theorem extract_soft_none (keypath : List Key) (location_format : String)
    (obj : Json) (e : PyErr) (h : reduceLookup keypath obj = .error e) :
    _extract_location keypath location_format obj = .ok none := by
  have hmem := reduceLookup_error_mem keypath obj e h
  rw [_extract_location]
  have hbind : (do
      let location ← reduceLookup keypath obj
      formatConvert location_format location : Except PyErr Point) = .error e := by
    rw [h]; rfl
  rw [hbind]
  rcases hmem with rfl | rfl | rfl <;> rfl

/-! ### C7 -/

/-- C7: for every record and every field path, whenever any lookup along
the path fails (missing key, out-of-range index, or non-indexable
intermediate value — the only errors a lookup can raise), the location
extractor returns null instead of raising. -/
theorem C7_lookup_failure_returns_null (keypath : List Key) (location_format : String)
    (obj : Json) (e : PyErr) (h : reduceLookup keypath obj = .error e) :
    _extract_location keypath location_format obj = .ok none :=
  extract_soft_none keypath location_format obj e h

/-- Witness for C7 at a record lacking the looked-up key. -/
theorem C7_witness : _extract_location [Key.key "loc"] "lon-lat-array" (.obj []) = .ok none :=
  C7_lookup_failure_returns_null [Key.key "loc"] "lon-lat-array" (.obj []) .keyError rfl

/-! ### C3 -/

/-- C3: the composite projection routes by the fixed thresholds: lat > 50
applies the Alaska sub-projection scaled by 0.35 and translated by
(-2250000, -1250000); otherwise lon < -140 applies the Hawaii
sub-projection translated by (-1250000, -1750000); otherwise the
continental sub-projection, additionally translated by
(-1125000, +750000) when lat < 20; and the function is pure, so two runs
on the same input are identical. -/
theorem C3_albers_routing (alaska hawaii lower48 : ℚ → ℚ → ℚ × ℚ) (lon lat : ℚ) :
    (lat > 50 →
      AlbersUsaProjection alaska hawaii lower48 lon lat =
        ((alaska lon lat).1 * 0.35 - 2250000, (alaska lon lat).2 * 0.35 - 1250000)) ∧
    (¬ lat > 50 → lon < -140 →
      AlbersUsaProjection alaska hawaii lower48 lon lat =
        ((hawaii lon lat).1 - 1250000, (hawaii lon lat).2 - 1750000)) ∧
    (¬ lat > 50 → ¬ lon < -140 → lat < 20 →
      AlbersUsaProjection alaska hawaii lower48 lon lat =
        ((lower48 lon lat).1 - 1125000, (lower48 lon lat).2 + 750000)) ∧
    (¬ lat > 50 → ¬ lon < -140 → ¬ lat < 20 →
      AlbersUsaProjection alaska hawaii lower48 lon lat = lower48 lon lat) ∧
    AlbersUsaProjection alaska hawaii lower48 lon lat =
      AlbersUsaProjection alaska hawaii lower48 lon lat := by
  rcases hA : alaska lon lat with ⟨ax, ay⟩
  rcases hH : hawaii lon lat with ⟨hx, hy⟩
  rcases hL : lower48 lon lat with ⟨lx, ly⟩
  refine ⟨fun h1 => ?_, fun h1 h2 => ?_, fun h1 h2 h3 => ?_, fun h1 h2 h3 => ?_, rfl⟩ <;>
    simp_all [AlbersUsaProjection, ← not_lt]

/-- Witness for C3: the Alaska branch at (lon, lat) = (-150, 60) with
identity sub-projections. -/
theorem C3_witness :
    AlbersUsaProjection (fun lon lat => (lon, lat)) (fun lon lat => (lon, lat))
      (fun lon lat => (lon, lat)) (-150) 60 =
      ((-150 : ℚ) * 0.35 - 2250000, (60 : ℚ) * 0.35 - 1250000) :=
  (C3_albers_routing (fun lon lat => (lon, lat)) (fun lon lat => (lon, lat))
    (fun lon lat => (lon, lat)) (-150) 60).1 (by norm_num)

/-! ### C2 -/

/-- C2 (code bug): the bounds calculator initialises the maxima to
`sys.float_info.min`, which is the smallest positive float, not the most
negative one.  On the single-coordinate feature at (-1, -1) it therefore
returns max_x = max_y = float_info_min instead of -1, contradicting its
own docstring "Returns ((min x, max x), (min y, max y))". -/
theorem C2_bounds_sentinel_eval :
    feature_set_bounds [negPointFeature] =
      .ok (((-1 : ℚ), float_info_min), ((-1 : ℚ), float_info_min)) ∧
    (0 : ℚ) < float_info_min ∧ float_info_min ≠ (-1 : ℚ) := by
  have hminx : min float_info_max (-1 : ℚ) = -1 :=
    min_eq_right (by norm_num [float_info_max])
  have hmaxx : max float_info_min (-1 : ℚ) = float_info_min :=
    max_eq_left (by norm_num [float_info_min])
  refine ⟨?_, by norm_num [float_info_min], by norm_num [float_info_min]⟩
  simp only [feature_set_bounds, negPointFeature, List.foldlM, _find_coordinate_bounds,
    bind, Except.bind, pure, Except.pure, hminx, hmaxx]

/-! ### C5 -/

/-- C5 (counterexample): a malformed record does not produce the
null-region outcome — the run aborts with the decode error, and in
particular the tally is not the claimed null-count table. -/
theorem C5_counterexample :
    run_tally [featureA] kpLoc "lon-lat-array" [lineMalformed] = .error .jsonDecodeError ∧
    run_tally [featureA] kpLoc "lon-lat-array" [lineMalformed] ≠ .ok [(none, 1)] := by
  constructor <;> simp [List.foldlM, bind, Except.bind, Except.map]

/-- C5 (amended): a record that cannot be decoded makes `json.loads`
raise an uncaught decode error: processing it yields the error, not the
null outcome, and a run containing it aborts instead of tallying it. -/
theorem C5_malformed_record_aborts (features : List Feature) (keypath : List Key)
    (location_format : String) (rest : List (Option Json)) :
    process_tweet features keypath location_format lineMalformed = .error .jsonDecodeError ∧
    run_tally features keypath location_format (lineMalformed :: rest) =
      .error .jsonDecodeError := by
  constructor <;> simp [List.foldlM_cons, bind, Except.bind, Except.map]

/-! ### C8 -/

/-- C8 (counterexample): constructing the extractor with the unknown tag
"bogus" raises nothing — the factory returns the closure — and the
ValueError instead surfaces while processing an individual record. -/
theorem C8_counterexample :
    extract_location kpLoc "bogus" = .ok (_extract_location kpLoc "bogus") ∧
    _extract_location kpLoc "bogus" recInA =
      .error (.valueError "Invalid location format: \"bogus\"") := by
  exact ⟨rfl, by simp [List.foldlM, bind, Except.bind, pure, Except.pure]⟩

/-- C8 (amended): an unknown format tag is rejected at setup time only by
the command-line parser's `choices`; the extractor factory itself does no
validation — construction succeeds for any tag, and the ValueError is
raised per record, and only when the record's keypath lookup succeeds
(when it fails, the record still yields null and the bad tag goes
unnoticed). -/
theorem C8_unknown_format_is_per_record (keypath : List Key) (location_format : String)
    (obj : Json) (h : location_format ∉ location_format_choices) :
    extract_location keypath location_format = .ok (_extract_location keypath location_format) ∧
    (∀ loc, reduceLookup keypath obj = .ok loc →
      _extract_location keypath location_format obj =
        .error (.valueError ("Invalid location format: \"" ++ location_format ++ "\""))) ∧
    (∀ e, reduceLookup keypath obj = .error e →
      _extract_location keypath location_format obj = .ok none) := by
  simp only [location_format_choices, List.mem_cons, List.not_mem_nil, or_false, not_or] at h
  obtain ⟨h1, h2, h3⟩ := h
  refine ⟨rfl, fun loc hloc => ?_, fun e he => extract_soft_none _ _ _ e he⟩
  have hbind : (do
      let location ← reduceLookup keypath obj
      formatConvert location_format location : Except PyErr Point) =
      formatConvert location_format loc := by
    rw [hloc]; rfl
  have hfc : formatConvert location_format loc =
      .error (.valueError ("Invalid location format: \"" ++ location_format ++ "\"")) := by
    cases loc <;> simp [formatConvert, h1, h2, h3]
  rw [_extract_location, hbind, hfc]

/-- Witness for C8 at the tag "bogus" and a record whose lookup
succeeds. -/
theorem C8_witness :
    _extract_location kpLoc "bogus" recInA =
      .error (.valueError ("Invalid location format: \"" ++ "bogus" ++ "\"")) :=
  (C8_unknown_format_is_per_record kpLoc "bogus" recInA (by simp)).2.1
    (.arr [.num 1, .num 1]) (by simp [List.foldlM, bind, Except.bind, pure, Except.pure])

/-! ### C1 -/

/-- C1 (counterexample): the point (2, 1) lies on the boundary of feature
A's polygon (the edge shared with feature B), yet the locator returns
null, not "A": shapely `contains` excludes the boundary. -/
theorem C1_counterexample :
    (shape featureA.geometry).map (fun s => onBoundaryB s (2, 1)) = .ok true ∧
    find_containing_feature [featureA, featureB] (some (2, 1)) = .ok none := by
  constructor <;>
    norm_num [List.mapM, List.mapM.loop, pure, Except.pure, Except.map, List.countP,
      List.countP.go, List.any, List.all, bind, Except.bind, List.foldlM, List.foldl]

/-- C1 (amended): over features whose geometries all parse, the locator
scans in collection order and returns the id of the first feature whose
shape strictly contains the point (interior containment; for a
multi-polygon, containment in any constituent polygon), returning null
exactly when no feature's interior contains it; and a point lying on a
polygon's boundary is never contained. -/
theorem C1_first_strict_containment (features : List Feature) (p : Point)
    (h : features.all shapeOk = true) :
    find_containing_feature features (some p) = .ok (firstContaining features p) ∧
    (∀ rings, rings.any (onRingB p) = true → polygonContainsB rings p = false) := by
  constructor
  · induction features with
    | nil => rfl
    | cons f rest ih =>
        rw [List.all_cons, Bool.and_eq_true] at h
        obtain ⟨hf, hrest⟩ := h
        obtain ⟨s, hs⟩ : ∃ s, shape f.geometry = .ok s := by
          revert hf; rw [shapeOk]; cases shape f.geometry <;> simp
        have hpred : (match shape f.geometry with
            | .ok s' => containsB s' p
            | .error _ => false) = containsB s p := by rw [hs]
        rw [find_containing_feature, hs, firstContaining, List.find?_cons]
        cases hc : containsB s p with
        | true =>
            simp only [bind, Except.bind, hpred, hc, if_true]
            rfl
        | false =>
            simp only [bind, Except.bind, hpred, hc, Bool.false_eq_true, if_false]
            exact ih hrest
  · intro rings hr
    simp [polygonContainsB, hr]

/-- Witness for C1 at a point interior to the first feature. -/
theorem C1_witness :
    ([featureA, featureB].all shapeOk = true) ∧
    find_containing_feature [featureA, featureB] (some (1, 1)) =
      .ok (firstContaining [featureA, featureB] (1, 1)) :=
  ⟨by simp [List.mapM, List.mapM.loop, pure, Except.pure, bind, Except.bind, Except.map],
   (C1_first_strict_containment [featureA, featureB] (1, 1)
     (by simp [List.mapM, List.mapM.loop, pure, Except.pure, bind, Except.bind, Except.map])).1⟩

/-! ### C6 -/

/-- Folding the aggregation loop from a counter that already holds only
the null key, over lines that all map to the null region, only grows the
null count. -/
theorem run_tally_go_all_none (features : List Feature) (keypath : List Key)
    (location_format : String) (lines : List (Option Json))
    (h : ∀ l ∈ lines, process_tweet features keypath location_format l = .ok none) :
    ∀ n : ℕ, lines.foldlM (tally_step features keypath location_format) [(none, n)] =
      .ok [(none, n + lines.length)] := by
  induction lines with
  | nil => intro n; simp [List.foldlM_nil, pure, Except.pure]
  | cons l ls ih =>
      intro n
      have hstep : tally_step features keypath location_format [(none, n)] l =
          .ok [(none, n + 1)] := by
        rw [tally_step, h l (List.mem_cons_self l ls)]
        simp [Except.map, counterInc]
      rw [List.foldlM_cons, hstep]
      simp only [bind, Except.bind]
      rw [ih (fun l hl => h l (List.mem_cons_of_mem _ hl)) (n + 1)]
      have harith : n + 1 + ls.length = n + (ls.length + 1) := by omega
      simp only [List.length_cons, harith]

/-- A run whose records all map to the null region tallies to the
single-entry counter [(None, N)]. -/
theorem run_tally_all_none (features : List Feature) (keypath : List Key)
    (location_format : String) (lines : List (Option Json)) (hne : lines ≠ [])
    (h : ∀ l ∈ lines, process_tweet features keypath location_format l = .ok none) :
    run_tally features keypath location_format lines = .ok [(none, lines.length)] := by
  cases lines with
  | nil => cases hne rfl
  | cons l ls =>
      have hstep : tally_step features keypath location_format [] l = .ok [(none, 1)] := by
        rw [tally_step, h l (List.mem_cons_self l ls)]
        simp [Except.map, counterInc]
      rw [run_tally, List.foldlM_cons, hstep]
      simp only [bind, Except.bind]
      rw [run_tally_go_all_none features keypath location_format ls
        (fun l hl => h l (List.mem_cons_of_mem _ hl)) 1]
      have harith : 1 + ls.length = ls.length + 1 := by omega
      simp only [List.length_cons, harith]

/-- C6: in every run with at least one record in which every record maps
to the null region (its extracted point lies in no feature), the driver
prints the distinct failure and exits 1 before producing any count table
or rendered map. -/
theorem C6_all_null_run_exits (features : List Feature) (keypath : List Key)
    (location_format : String) (lines : List (Option Json)) (hne : lines ≠ [])
    (h : ∀ l ∈ lines, process_tweet features keypath location_format l = .ok none) :
    main_run features keypath location_format lines = .exit1 "Unable to locate any tweets" := by
  rw [main_run, run_tally_all_none features keypath location_format lines hne h]
  simp [counter_keys]

/-- Witness for C6: one record whose point lies outside every feature. -/
theorem C6_witness :
    main_run [featureA] kpLoc "lon-lat-array" [lineOutside] =
      .exit1 "Unable to locate any tweets" :=
  C6_all_null_run_exits [featureA] kpLoc "lon-lat-array" [lineOutside] (by simp)
    (by
      intro l hl
      rw [List.mem_singleton] at hl
      subst hl
      norm_num [List.mapM, List.mapM.loop, pure, Except.pure, Except.map, List.countP,
        List.countP.go, List.any, List.all, bind, Except.bind, List.foldlM, List.foldl])

/-! ### C4 -/

/-- When every record's pipeline succeeds, the aggregation loop is the
fold of counter increments over the per-record results. -/
theorem foldlM_tally_eq (features : List Feature) (keypath : List Key)
    (location_format : String) :
    ∀ (lines : List (Option Json)) (c : Counter) (results : List (Option String)),
    lines.mapM (process_tweet features keypath location_format) = .ok results →
    lines.foldlM (tally_step features keypath location_format) c
      = .ok (results.foldl counterInc c) := by
  intro lines
  induction lines with
  | nil =>
      intro c results h
      simp only [List.mapM_nil, pure, Except.pure] at h
      injection h with h
      subst h
      simp [List.foldlM_nil, pure, Except.pure]
  | cons l ls ih =>
      intro c results h
      rw [List.mapM_cons] at h
      cases hp : process_tweet features keypath location_format l with
      | error e => rw [hp] at h; simp [bind, Except.bind] at h
      | ok r =>
          rw [hp] at h
          simp only [bind, Except.bind] at h
          cases hm : ls.mapM (process_tweet features keypath location_format) with
          | error e => rw [hm] at h; simp at h
          | ok rs =>
              rw [hm] at h
              simp only [pure, Except.pure] at h
              injection h with h
              subst h
              have hstep : tally_step features keypath location_format c l =
                  .ok (counterInc c r) := by
                rw [tally_step, hp]; rfl
              rw [List.foldlM_cons, hstep]
              simp only [bind, Except.bind]
              rw [ih (counterInc c r) rs hm, List.foldl_cons]

/-- Incrementing one key changes exactly that key's count. -/
theorem counterGet_counterInc (c : Counter) (k k' : Option String) :
    counterGet (counterInc c k) k' = counterGet c k' + (if k = k' then 1 else 0) := by
  induction c with
  | nil => simp only [counterInc, counterGet]; split <;> simp_all [counterGet]
  | cons kv rest ih =>
      obtain ⟨k0, n⟩ := kv
      by_cases h0 : k0 = k
      · subst h0
        simp only [counterInc, if_pos rfl, counterGet]
        by_cases h1 : k0 = k' <;> simp_all
      · simp only [counterInc, if_neg h0, counterGet]
        by_cases h1 : k0 = k'
        · subst h1
          simp only [if_pos rfl]
          have : ¬ k = k0 := fun hk => h0 hk.symm
          simp [this]
        · simp only [if_neg h1, ih]

/-- The final tally assigns each key the number of records that produced
it: a multiset count, independent of the order the pool delivers
results. -/
theorem counterGet_tally_of (results : List (Option String)) (k : Option String) :
    counterGet (tally_of results) k = results.countP (fun r => decide (r = k)) := by
  suffices haux : ∀ (rs : List (Option String)) (c : Counter),
      counterGet (rs.foldl counterInc c) k =
        counterGet c k + rs.countP (fun r => decide (r = k)) by
    have hmain := haux results []
    simpa [tally_of, counterGet] using hmain
  intro rs
  induction rs with
  | nil => intro c; simp [counterGet]
  | cons r rs ih =>
      intro c
      rw [List.foldl_cons, ih, counterGet_counterInc, List.countP_cons]
      simp only [decide_eq_true_eq]
      split <;> omega

/-- C4 (counterexample): two records of which exactly one yields a valid
location (inside feature A) and the other yields none.  The claim
predicts the tally A = 1, null = 1; the program instead aborts, because
the locator is applied to the null point and shapely raises on it. -/
theorem C4_counterexample :
    run_tally [featureA] kpLoc "lon-lat-array" [lineInA, lineNoLoc] =
      .error (.valueError "Null geometry supports no operations") ∧
    run_tally [featureA] kpLoc "lon-lat-array" [lineInA, lineNoLoc] ≠
      .ok [(some "A", 1), (none, 1)] ∧
    run_tally [featureA] kpLoc "lon-lat-array" [lineInA, lineNoLoc] ≠
      .ok [(none, 1), (some "A", 1)] := by
  have h : run_tally [featureA] kpLoc "lon-lat-array" [lineInA, lineNoLoc] =
      .error (.valueError "Null geometry supports no operations") := by
    simp [List.mapM, List.mapM.loop, pure, Except.pure, Except.map, List.countP,
      List.countP.go, List.any, List.all, bind, Except.bind, List.foldlM, List.foldl]
    norm_num
  exact ⟨h, by rw [h]; exact fun hc => Except.noConfusion hc,
    by rw [h]; exact fun hc => Except.noConfusion hc⟩

/-- C4 (amended): every record whose pipeline succeeds increments exactly
one key — the id of the first region containing its point, or the null
sentinel when its point lies in no region — and the final tally gives
each key the multiset count of the per-record results, so it is
order-independent; but a record from which no location is extracted does
not tally as null: with a non-empty feature list the locator is applied
to the null point and raises, aborting the run. -/
theorem C4_tally_counts_successful_results :
    (∀ (features : List Feature) (keypath : List Key) (location_format : String)
        (lines : List (Option Json)) (results : List (Option String)),
      lines.mapM (process_tweet features keypath location_format) = .ok results →
      run_tally features keypath location_format lines = .ok (tally_of results) ∧
      ∀ k, counterGet (tally_of results) k =
        results.countP (fun r => decide (r = k))) ∧
    (∀ (f : Feature) (rest : List Feature) (keypath : List Key) (location_format : String)
        (obj : Json), _extract_location keypath location_format obj = .ok none →
      ∃ e, process_tweet (f :: rest) keypath location_format (some obj) = .error e) := by
  constructor
  · intro features keypath location_format lines results h
    refine ⟨?_, fun k => counterGet_tally_of results k⟩
    rw [run_tally, tally_of]
    exact foldlM_tally_eq features keypath location_format lines [] results h
  · intro f rest keypath location_format obj hobj
    rw [process_tweet]
    have hload : json_loads (some obj) = .ok obj := rfl
    rw [hload]
    simp only [bind, Except.bind, hobj]
    rw [find_containing_feature]
    cases hs : shape f.geometry with
    | error e => exact ⟨e, rfl⟩
    | ok s => exact ⟨.valueError "Null geometry supports no operations", rfl⟩

/-- Witness for C4: two successful records, one located in A and one in
no region, tally to their multiset of results. -/
theorem C4_witness :
    run_tally [featureA] kpLoc "lon-lat-array" [lineInA, lineOutside] =
      .ok (tally_of [some "A", none]) :=
  (C4_tally_counts_successful_results.1 [featureA] kpLoc "lon-lat-array"
    [lineInA, lineOutside] [some "A", none]
    (by
      norm_num [List.mapM, List.mapM.loop, pure, Except.pure, Except.map, List.countP,
        List.countP.go, List.any, List.all, bind, Except.bind, List.foldlM, List.foldl])).1

/-! ### C9 -/

/-- Structural induction over coordinate trees, with the membership
hypothesis at list nodes. -/
theorem Coords.induction_on {P : Coords → Prop} (hnum : ∀ q, P (.num q))
    (hlist : ∀ l, (∀ c ∈ l, P c) → P (.list l)) : ∀ c, P c
  | .num q => hnum q
  | .list l => hlist l fun c hc =>
      have : sizeOf c < sizeOf (Coords.list l) := by
        have h1 := List.sizeOf_lt_of_mem hc
        simp only [Coords.list.sizeOf_spec]
        omega
      Coords.induction_on hnum hlist c

/-- The program's coordinate test `[isinstance(c, Number) for c in l] ==
[True, True]` holds exactly for two-number lists. -/
theorem coordinate_check_iff (l : List Coords) :
    l.map isNumberB = [true, true] ↔ ∃ a b, l = [Coords.num a, Coords.num b] := by
  constructor
  · intro h
    rcases l with _ | ⟨c1, _ | ⟨c2, _ | ⟨c3, r⟩⟩⟩ <;> simp_all
    cases c1 <;> cases c2 <;> simp_all [isNumberB]
  · rintro ⟨a, b, rfl⟩
    rfl

/-- On a list node that is not a coordinate, the projector recurses
elementwise. -/
theorem project_list_node (projection : ℚ → ℚ → ℚ × ℚ) (l : List Coords)
    (hne : ∀ a b, l ≠ [Coords.num a, Coords.num b]) :
    _project_coordinates projection (.list l) = (projectList projection l).map .list := by
  have hmap : ¬ l.map isNumberB = [true, true] := by
    intro hm
    obtain ⟨a, b, rfl⟩ := (coordinate_check_iff l).mp hm
    exact hne a b rfl
  rw [_project_coordinates, if_neg hmap]
  exact fun a b hl => hne a b hl

/-- On a list node that is not a coordinate, well-formedness is
elementwise. -/
theorem isGeomB_list_node (l : List Coords)
    (hne : ∀ a b, l ≠ [Coords.num a, Coords.num b]) :
    isGeomB (.list l) = isGeomListB l := by
  have hmap : ¬ l.map isNumberB = [true, true] := by
    intro hm
    obtain ⟨a, b, rfl⟩ := (coordinate_check_iff l).mp hm
    exact hne a b rfl
  rw [isGeomB, if_neg hmap]

/-- Elementwise step for shape preservation. -/
theorem projectList_ok (projection : ℚ → ℚ → ℚ × ℚ) (l : List Coords)
    (hmem : ∀ c ∈ l, isGeomB c = true →
      ∃ c', _project_coordinates projection c = .ok c' ∧ sameShapeB c c' = true)
    (hall : isGeomListB l = true) :
    ∃ l', projectList projection l = .ok l' ∧ sameShapeListB l l' = true := by
  induction l with
  | nil => exact ⟨[], rfl, rfl⟩
  | cons c cs ih =>
      rw [isGeomListB, Bool.and_eq_true] at hall
      obtain ⟨hc, hcs⟩ := hall
      obtain ⟨c', hc', hsc⟩ := hmem c (List.mem_cons_self c cs) hc
      obtain ⟨cs', hcs', hscs⟩ := ih (fun d hd => hmem d (List.mem_cons_of_mem _ hd)) hcs
      refine ⟨c' :: cs', ?_, ?_⟩
      · rw [projectList, hc']
        simp only [bind, Except.bind]
        rw [hcs']
      · rw [sameShapeListB, hsc, hscs]
        rfl

/-- Shape preservation of the projector on well-formed geometries. -/
theorem project_coordinates_ok (projection : ℚ → ℚ → ℚ × ℚ) :
    ∀ g, isGeomB g = true →
      ∃ g', _project_coordinates projection g = .ok g' ∧ sameShapeB g g' = true := by
  intro g
  induction g using Coords.induction_on with
  | hnum q => intro hg; simp [isGeomB] at hg
  | hlist l hmem =>
      intro hg
      by_cases hcoord : ∃ a b, l = [Coords.num a, Coords.num b]
      · obtain ⟨a, b, rfl⟩ := hcoord
        rcases hp : projection a b with ⟨x, y⟩
        refine ⟨.list [.num x, .num y], ?_, ?_⟩
        · simp [_project_coordinates, isNumberB, hp]
        · simp [sameShapeB, sameShapeListB]
      · push_neg at hcoord
        rw [isGeomB_list_node l hcoord] at hg
        obtain ⟨l', hl', hsl⟩ := projectList_ok projection l hmem hg
        refine ⟨.list l', ?_, ?_⟩
        · rw [project_list_node projection l hcoord, hl']
          rfl
        · rw [sameShapeB, hsl]

/-- Elementwise step for the identity projection. -/
theorem projectList_id (l : List Coords)
    (hmem : ∀ c ∈ l, isGeomB c = true →
      _project_coordinates (fun x y => (x, y)) c = .ok c)
    (hall : isGeomListB l = true) :
    projectList (fun x y => (x, y)) l = .ok l := by
  induction l with
  | nil => rfl
  | cons c cs ih =>
      rw [isGeomListB, Bool.and_eq_true] at hall
      obtain ⟨hc, hcs⟩ := hall
      rw [projectList, hmem c (List.mem_cons_self c cs) hc]
      simp only [bind, Except.bind]
      rw [ih (fun d hd => hmem d (List.mem_cons_of_mem _ hd)) hcs]

/-- The identity projection leaves a well-formed geometry unchanged. -/
theorem project_coordinates_id :
    ∀ g, isGeomB g = true → _project_coordinates (fun x y => (x, y)) g = .ok g := by
  intro g
  induction g using Coords.induction_on with
  | hnum q => intro hg; simp [isGeomB] at hg
  | hlist l hmem =>
      intro hg
      by_cases hcoord : ∃ a b, l = [Coords.num a, Coords.num b]
      · obtain ⟨a, b, rfl⟩ := hcoord
        simp [_project_coordinates, isNumberB]
      · push_neg at hcoord
        rw [isGeomB_list_node l hcoord] at hg
        rw [project_list_node _ l hcoord, projectList_id l hmem hg]
        rfl

/-- C9: the feature projector classifies a node as a coordinate exactly
when it is a 2-element sequence of numbers, preserves nesting structure
and element count at every level of a well-formed geometry, and with the
identity projection returns the geometry's coordinates unchanged. -/
theorem C9_projector_shape_preservation (projection : ℚ → ℚ → ℚ × ℚ) (g : Coords)
    (h : isGeomB g = true) :
    (∃ g', _project_coordinates projection g = .ok g' ∧ sameShapeB g g' = true) ∧
    _project_coordinates (fun x y => (x, y)) g = .ok g ∧
    ∀ l : List Coords,
      l.map isNumberB = [true, true] ↔ ∃ a b, l = [Coords.num a, Coords.num b] :=
  ⟨project_coordinates_ok projection g h, project_coordinates_id g h,
   fun l => coordinate_check_iff l⟩

/-- Witness for C9 on the square ring geometry with the coordinate-swap
projection. -/
theorem C9_witness :
    (∃ g', _project_coordinates (fun x y => (y, x)) (.list [ringA]) = .ok g' ∧
      sameShapeB (.list [ringA]) g' = true) ∧
    _project_coordinates (fun x y => (x, y)) (.list [ringA]) = .ok (.list [ringA]) :=
  ⟨(C9_projector_shape_preservation (fun x y => (y, x)) (.list [ringA]) (by simp)).1,
   (C9_projector_shape_preservation (fun x y => (y, x)) (.list [ringA]) (by simp)).2.1⟩

/-! ### C10 -/

/-- The mutation loop writes only at its addresses: every slot below `n`
is untouched when all addresses are at least `n`. -/
theorem mutate_preserves_prefix (projection : ℚ → ℚ → ℚ × ℚ) (n : ℕ) :
    ∀ (addrs : List ℕ) (h0 hend : List Feature), (∀ a ∈ addrs, n ≤ a) →
    addrs.foldlM (mutate_step projection) h0 = .ok hend →
    ∀ i, i < n → hend.getD i defaultFeature = h0.getD i defaultFeature := by
  intro addrs
  induction addrs with
  | nil =>
      intro h0 hend _ hm i hi
      simp only [List.foldlM_nil, pure, Except.pure] at hm
      injection hm with hm
      rw [hm]
  | cons a as ih =>
      intro h0 hend hge hm i hi
      rw [List.foldlM_cons] at hm
      cases hp : project_feature projection (h0.getD a defaultFeature) with
      | error e =>
          rw [mutate_step, hp] at hm
          simp [Except.map, bind, Except.bind] at hm
      | ok f =>
          have hstep : mutate_step projection h0 a = .ok (h0.set a f) := by
            rw [mutate_step, hp]
            rfl
          rw [hstep] at hm
          simp only [bind, Except.bind] at hm
          have hrec := ih (h0.set a f) hend (fun b hb => hge b (List.mem_cons_of_mem _ hb)) hm i hi
      
      
          rw [hrec]
          have hne : a ≠ i := by
            have := hge a (List.mem_cons_self a as)
            omega
          simp [List.getD, List.getElem?_set_ne hne]

/-- Projecting a feature replaces only its geometry: the properties are
those of the input. -/
theorem project_feature_properties (projection : ℚ → ℚ → ℚ × ℚ) (f g : Feature)
    (h : project_feature projection f = .ok g) : g.properties = f.properties := by
  rw [project_feature] at h
  cases hp : _project_coordinates projection f.geometry.coordinates with
  | error e => rw [hp] at h; simp [Except.map] at h
  | ok c =>
      rw [hp] at h
      simp only [Except.map] at h
      injection h with h
      rw [← h]

/-- C10: the feature projector never mutates the input features — every
pre-existing heap slot is unchanged — and returns a fresh, independent
copy (all result addresses lie beyond the original heap) in which only
the geometry coordinates are replaced (projecting preserves a feature's
properties). -/
theorem C10_projected_features_frame (heap : List Feature) (addrs : List ℕ)
    (projection : ℚ → ℚ → ℚ × ℚ) (hres : List Feature) (newAddrs : List ℕ)
    (h : projected_features heap addrs projection = .ok (hres, newAddrs)) :
    (∀ i, i < heap.length → hres.getD i defaultFeature = heap.getD i defaultFeature) ∧
    (∀ a ∈ newAddrs, heap.length ≤ a) ∧
    (∀ f g : Feature, project_feature projection f = .ok g → g.properties = f.properties) := by
  rw [projected_features] at h
  simp only [deepcopy_features] at h
  cases hm : mutate_geometries projection
      (heap ++ addrs.map fun a => heap.getD a defaultFeature)
      (List.range' heap.length addrs.length 1) with
  | error e => rw [hm] at h; simp [Except.map] at h
  | ok hh =>
      rw [hm] at h
      simp only [Except.map] at h
      injection h with h
      rw [Prod.mk.injEq] at h
      obtain ⟨hh_eq, hna⟩ := h
      subst hh_eq
      subst hna
      refine ⟨?_, ?_, fun f g hp => project_feature_properties projection f g hp⟩
      · intro i hi
        rw [mutate_geometries] at hm
        have hpre := mutate_preserves_prefix projection heap.length
          (List.range' heap.length addrs.length 1)
          (heap ++ addrs.map fun a => heap.getD a defaultFeature) hh
          (fun a ha => (List.mem_range'_1.mp ha).1) hm i hi
        rw [hpre]
        exact List.getD_append heap (addrs.map fun a => heap.getD a defaultFeature)
          defaultFeature i hi
      · intro a ha
        exact (List.mem_range'_1.mp ha).1

/-- Witness for C10: projecting the one-feature heap with a shift leaves
the original feature's slot untouched. -/
theorem C10_witness :
    [featureA, featureAShifted].getD 0 defaultFeature = [featureA].getD 0 defaultFeature :=
  (C10_projected_features_frame [featureA] [0] (fun x y => (x + 1, y))
    [featureA, featureAShifted] [1]
    (by
      norm_num [List.range', List.foldlM, bind, Except.bind, pure, Except.pure, Except.map,
        List.set, isNumberB])).1 0 (by norm_num)

end Tweetmap
